import Mathlib

/-!
Verification of the Process Supervision and Log Aggregation subsystem of
TwitchYapBotInstaller-Rust.

The development shallowly embeds the relevant Rust code:

- the shared output ring buffer and its two insertion paths
  (src/bin/TwitchYapBot/gui.rs, push_log_line and the raw
  VecDeque::push_back calls in src/bin/TwitchYapBot/bot_manager.rs);
- the process supervisor state transitions stop_bot and the spawn phase of
  run_markov_chain_bot (src/bin/TwitchYapBot/bot_manager.rs);
- the per-line body of the stdout and stderr reader threads and the
  exit-watcher thread (src/bin/TwitchYapBot/bot_manager.rs lines 132-174);
- the IPC payload handler (src/bin/TwitchYapBot/ipc.rs) and the restart-flag
  poll in the GUI tick (src/bin/TwitchYapBot/gui.rs lines 219-223);
- log rotation and logger initialization (src/bin/TwitchYapBot/log_util.rs);
- the duplicate-eliminating renderer pass (src/bin/TwitchYapBot/output.rs
  lines 137, 150-153).

Machine strings are modelled as Lean String values; file creation times as
Nat; OS process handles and pids as Nat. Concurrency is modelled where a
claim requires it by an explicit interleaving relation on the sequences of
buffer appends each thread performs.
-/

namespace YapBot

/-- Helper for substring search: does pat occur starting at some position of
the given character list. Translates the semantics of Rust str::contains. -/
def containsAux (pat : List Char) : List Char → Bool
  | [] => pat.isPrefixOf []
  | c :: cs => pat.isPrefixOf (c :: cs) || containsAux pat cs

/-- Translation of Rust str::contains(pat): substring containment test. -/
def strContains (s pat : String) : Bool :=
  containsAux pat.data s.data

/-- Translation of Rust str::trim: strip leading and trailing whitespace.
Lean Char.isWhitespace covers the ASCII whitespace relevant to the payloads
exchanged by this program. -/
def rustTrim (s : String) : String :=
  ⟨((s.data.dropWhile Char.isWhitespace).reverse.dropWhile Char.isWhitespace).reverse⟩

/-- The shared output buffer app.output_lines: a VecDeque of String created
with VecDeque::with_capacity(200) in TwitchYapBotApp::new (gui.rs line 123).
The capacity field records the allocated capacity returned by
VecDeque::capacity(); data holds the queued lines front first. -/
structure RingBuffer where
  capacity : Nat
  data : List String
deriving DecidableEq

/-- Raw VecDeque::push_back as used directly on the shared buffer by
stop_bot (bot_manager.rs line 62), restart_bot (line 88) and both reader
threads (lines 143 and 161): the line is appended with no eviction check.
The reallocation a real VecDeque performs when it is full only grows the
allocation; no theorem below relies on the capacity field after the data
length has reached it. -/
def RingBuffer.pushBack (b : RingBuffer) (line : String) : RingBuffer :=
  { b with data := b.data ++ [line] }

/-- Translation of push_log_line (gui.rs lines 243-249): under the lock,
if len() == capacity() pop the front element, then push the line at the
back. This is the insertion path used by the GUI poll loop
(gui.rs line 206). -/
def push_log_line (buffer : RingBuffer) (line : String) : RingBuffer :=
  if buffer.data.length = buffer.capacity then
    { buffer with data := buffer.data.tail ++ [line] }
  else
    { buffer with data := buffer.data ++ [line] }

/-- The shared buffer as created at application start:
VecDeque::with_capacity(200), empty (gui.rs line 123). -/
def outputLinesInit : RingBuffer :=
  { capacity := 200, data := [] }

/-- The supervisor-visible state mutated by stop_bot: the child handle and
pid stored on TwitchYapBotApp, the shared output buffer, and the lines
handed to the persistent logger via log_util. The child handle is
abstracted to the pid it wraps. -/
structure BotState where
  child : Option Nat
  child_pid : Option Nat
  output_lines : RingBuffer
  plog : List String
deriving DecidableEq

/-- The fixed sentinel message of stop_bot (bot_manager.rs line 60). -/
def destroyedMsg : String :=
  "Yap Bot has been destroyed by your own hands..."

/-- The sentinel line pushed to the shared buffer by stop_bot
(bot_manager.rs line 62): format is bracketed timestamp, space, message. -/
def sentinelLine (ts : String) : String :=
  "[" ++ ts ++ "] " ++ destroyedMsg

/-- The taskkill debug line logged by stop_bot when a pid is stored
(bot_manager.rs lines 36-41). -/
def taskkillLog (pid : Nat) : String :=
  "[DEBUG] Ran: taskkill /PID " ++ toString pid ++ " /F /T"

/-- Translation of stop_bot (bot_manager.rs lines 30-63), Windows build.
When a pid is stored the taskkill invocation is logged (the lines of the
taskkill process output itself come from outside the program and are not
modelled). Afterwards, unconditionally: the handle and pid are cleared, the
sentinel message is logged, and the sentinel line is appended to the shared
buffer with a raw push_back. The timestamp is passed in as ts. -/
def stop_bot (ts : String) (s : BotState) : BotState :=
  let s1 :=
    match s.child_pid with
    | some pid => { s with plog := s.plog ++ [taskkillLog pid] }
    | none => s
  { s1 with
    child := none
    child_pid := none
    plog := s1.plog ++ [destroyedMsg]
    output_lines := s1.output_lines.pushBack (sentinelLine ts) }

/-- The caller-supplied message line pushed by restart_bot
(bot_manager.rs lines 86-88): bracketed timestamp with trailing colon,
space, message. -/
def restartMsgLine (ts msg : String) : String :=
  "[" ++ ts ++ "]: " ++ msg

/-- Standard interleaving of two event sequences: Interleave xs ys zs holds
when zs merges xs and ys preserving the internal order of each. Used to
model the unordered appends that concurrent threads perform on the shared
buffer. -/
inductive Interleave {α : Type} : List α → List α → List α → Prop
  | nil : Interleave [] [] []
  | left {x : α} {xs ys zs : List α} :
      Interleave xs ys zs → Interleave (x :: xs) ys (x :: zs)
  | right {y : α} {xs ys zs : List α} :
      Interleave xs ys zs → Interleave xs (y :: ys) (y :: zs)

/-- The sequences of appends the shared buffer can receive during
restart_bot called while a process is running (bot_manager.rs lines 68-90):
stop_bot pushes the sentinel line (line 62) synchronously before the new
process is spawned; after the spawn, the main thread pushes the caller
message line (line 88) while the freshly spawned stdout reader thread may
push the first captured output line (line 143) at any moment, so those two
appends are unordered with respect to each other. A trace is the sentinel
followed by any interleaving of the two remaining single-element append
sequences. -/
def RestartTrace (sentinel msgLine out0 : String) (t : List String) : Prop :=
  ∃ rest, Interleave [msgLine] [out0] rest ∧ t = sentinel :: rest

/-- Translation of the per-connection body of start_ipc_server
(ipc.rs lines 14-21): the received payload (after String::from_utf8_lossy
on the bytes read, modelled here as the already decoded string) is trimmed
and compared with the exact sentinel; on a match the shared flag is set to
true, otherwise the flag is left unchanged. -/
def ipc_handle_payload (payload : String) (flag : Bool) : Bool :=
  if rustTrim payload = "RESTART_BOT" then true else flag

/-- Translation of the restart-flag poll in TwitchYapBotApp::update
(gui.rs lines 219-223): if the flag is observed true, a restart is
performed and the flag is stored back as false. Returns the new flag value
and whether restart_bot was invoked. -/
def gui_ipc_step (flag : Bool) : Bool × Bool :=
  if flag then (false, true) else (flag, false)

/-- State touched by one reader thread iteration: lines handed to the
persistent logger via log_util::log_message, lines sent on the mpsc
notification channel tx, and the shared output buffer. -/
structure PumpState where
  plog : List String
  chan : List String
  buf : RingBuffer
deriving DecidableEq

/-- The denylist substring filtered by both reader threads
(bot_manager.rs lines 137 and 155). -/
def manualTriggerNoise : String :=
  "Generate command triggered manually"

/-- Translation of the loop body of the stdout reader thread
(bot_manager.rs lines 134-146): a line containing the denylist substring is
dropped entirely; otherwise it is logged with the stream prefix, sent on
the channel, and appended to the shared buffer with a raw push_back. The
stderr thread (lines 151-165) is identical up to the log prefix. -/
def process_stdout_line (s : PumpState) (line : String) : PumpState :=
  if strContains line manualTriggerNoise then
    s
  else
    { plog := s.plog ++ ["[MarkovChainBot.py] " ++ line]
      chan := s.chan ++ [line]
      buf := s.buf.pushBack line }

/-- The pump state at the start of a run: nothing logged or sent, shared
buffer as created at application start. -/
def pumpInit : PumpState :=
  { plog := [], chan := [], buf := outputLinesInit }

/-- Translation of the exit-watcher thread body
(bot_manager.rs lines 168-174): the exit status is logged via
log_util::log_message; nothing is sent on the channel and nothing is
pushed into the shared buffer. -/
def exit_watcher (s : PumpState) (status : String) : PumpState :=
  { s with plog := s.plog ++ ["[MarkovChainBot.py] exited with status: " ++ status] }

/-- The duplicate-skipping pass of render_output_log
(output.rs lines 137 and 150-153): a HashSet named seen accumulates lines;
a line already seen is skipped. Modelled with the seen set as a list. -/
def dedup_go (seen : List String) : List String → List String
  | [] => []
  | l :: rest =>
    if l ∈ seen then dedup_go seen rest
    else l :: dedup_go (l :: seen) rest

/-- Lines surviving the duplicate-skipping pass of render_output_log,
starting from an empty seen set. -/
def render_dedup (lines : List String) : List String :=
  dedup_go [] lines

/-- Outcome of Command::spawn in run_markov_chain_bot
(bot_manager.rs line 124). -/
inductive SpawnOutcome where
  | ok (pid : Nat)
  | fail
deriving DecidableEq

/-- The run header logged by run_markov_chain_bot before the spawn attempt
(bot_manager.rs line 110). -/
def runHeaderLine : String :=
  "--- Twitch Yap Bot Run ---"

/-- The spawn phase of run_markov_chain_bot as observed by its caller
(bot_manager.rs lines 100-126 together with the spawning pattern of
restart_bot lines 76-81 and TwitchYapBotApp::new lines 126-131): the run
header is logged, then spawn is attempted. On success the function returns
the handle and pid, which the spawning thread sends on the result channel.
On failure the expect call panics the spawning thread, so nothing is ever
sent on the result channel and nothing further is logged. Returns the list
of lines handed to the logger and the Option value sent on the result
channel (none meaning the channel is closed by the panic without a send). -/
def run_markov_chain_bot (outcome : SpawnOutcome) :
    List String × Option (Option Nat × Option Nat) :=
  match outcome with
  | .ok pid => ([runHeaderLine], some (some pid, some pid))
  | .fail => ([runHeaderLine], none)

/-- Translation of child_receiver.recv().unwrap_or((None, None)) in
restart_bot (bot_manager.rs line 81) and TwitchYapBotApp::new
(gui.rs line 131): a closed channel yields (None, None). -/
def restart_recv (sent : Option (Option Nat × Option Nat)) :
    Option Nat × Option Nat :=
  sent.getD (none, none)

/-- A directory entry as seen by rotate_logs: file name, extension (as
Path::extension, none when the name has no extension), and creation time
from fs::Metadata::created, modelled as a Nat. -/
structure FsFile where
  name : String
  ext : Option String
  ctime : Nat
deriving DecidableEq

/-- Maximum number of log files to keep (config.rs line 20). -/
def MAX_LOG_FILES : Nat := 10

/-- The extension test of rotate_logs (log_util.rs line 29):
e.path().extension().map(|ext| ext == "log").unwrap_or(false). -/
def isLogFile (f : FsFile) : Bool :=
  match f.ext with
  | some e => e == "log"
  | none => false

/-- The log files of a directory sorted by creation time ascending: the
filter and sort_by_key steps of rotate_logs (log_util.rs lines 27-31).
sort_by_key is a stable sort; insertionSort is stable as well. -/
def sortedLogs (files : List FsFile) : List FsFile :=
  List.insertionSort (fun a b => a.ctime ≤ b.ctime) (files.filter isLogFile)

/-- Translation of rotate_logs (log_util.rs lines 25-41): collect the
directory entries whose extension is log, sort them by creation time
ascending, then remove the oldest while more than MAX_LOG_FILES remain,
which deletes exactly the first len - MAX_LOG_FILES entries of the sorted
list. The result is the directory content after the removals. -/
def rotate_logs (files : List FsFile) : List FsFile :=
  files.filter (fun f =>
    decide (f ∉ (sortedLogs files).take ((sortedLogs files).length - MAX_LOG_FILES)))

/-- Translation of Logger::init (log_util.rs lines 44-78) on the default
path (no YAPBOT_LOG_PATH override), acting on the log directory content:
the synchronous part rotates once (line 54) and picks a fresh
timestamp-based file name; the spawned logger thread then creates that file
with OpenOptions::append(true).create(true) (line 62) and rotates again
(line 63) before processing any messages. newName and now are the name and
creation time of the session log file. -/
def logger_init (files : List FsFile) (newName : String) (now : Nat) : List FsFile :=
  rotate_logs (rotate_logs files ++ [⟨newName, some "log", now⟩])

/-- Twelve pre-existing log files with distinct creation times 0 through
11, used as the concrete MAX_LOG_FILES + 2 rotation scenario. -/
def files12 : List FsFile :=
  (List.range 12).map (fun i => ⟨toString i, some "log", i⟩)

/-- Raw push_back never evicts: folding it over any line sequence appends
the whole sequence and keeps the capacity field. -/
theorem pushBack_foldl (lines : List String) (b : RingBuffer) :
    (lines.foldl RingBuffer.pushBack b).data = b.data ++ lines ∧
    (lines.foldl RingBuffer.pushBack b).capacity = b.capacity := by
  induction lines generalizing b with
  | nil => simp
  | cons l ls ih =>
    obtain ⟨h1, h2⟩ := ih (b.pushBack l)
    refine ⟨?_, by simpa [RingBuffer.pushBack] using h2⟩
    rw [List.foldl_cons, h1]
    simp [RingBuffer.pushBack]

/-- Folding push_log_line over a line sequence from a buffer within its
capacity keeps the capacity field and retains exactly the lines that fit,
dropping the oldest first. -/
theorem push_log_line_foldl (lines : List String) (b : RingBuffer)
    (hle : b.data.length ≤ b.capacity) (hc : 0 < b.capacity) :
    (lines.foldl push_log_line b).capacity = b.capacity ∧
    (lines.foldl push_log_line b).data =
      (b.data ++ lines).drop (b.data.length + lines.length - b.capacity) := by
  induction lines generalizing b with
  | nil =>
    refine ⟨rfl, ?_⟩
    simp only [List.foldl_nil, List.append_nil, List.length_nil]
    have h0 : b.data.length + 0 - b.capacity = 0 := by omega
    rw [h0, List.drop_zero]
  | cons l ls ih =>
    rw [List.foldl_cons]
    by_cases hfull : b.data.length = b.capacity
    · obtain ⟨a, as, hd⟩ : ∃ a as, b.data = a :: as := by
        cases hdd : b.data with
        | nil =>
          exfalso
          rw [hdd] at hfull
          simp at hfull
          omega
        | cons a as => exact ⟨a, as, rfl⟩
      have hlen2 : as.length + 1 = b.capacity := by
        rw [hd] at hfull
        simpa using hfull
      have hstep : push_log_line b l =
          { capacity := b.capacity, data := as ++ [l] } := by
        simp [push_log_line, hd, hlen2]
      rw [hstep]
      obtain ⟨hcap2, hdata2⟩ :=
        ih { capacity := b.capacity, data := as ++ [l] }
          (by simpa using hlen2.le) hc
      refine ⟨hcap2, ?_⟩
      rw [hdata2]
      dsimp only
      rw [hd]
      have e1 : (as ++ [l]).length + ls.length - b.capacity = ls.length := by
        simp
        omega
      have e2 : (a :: as).length + (l :: ls).length - b.capacity = ls.length + 1 := by
        simp
        omega
      rw [e1, e2, List.cons_append, List.drop_succ_cons, List.append_assoc,
        List.singleton_append]
    · have hlt : b.data.length < b.capacity := lt_of_le_of_ne hle hfull
      have hstep : push_log_line b l =
          { capacity := b.capacity, data := b.data ++ [l] } := by
        simp [push_log_line, hfull]
      rw [hstep]
      obtain ⟨hcap2, hdata2⟩ :=
        ih { capacity := b.capacity, data := b.data ++ [l] }
          (by simp; omega) hc
      refine ⟨hcap2, ?_⟩
      rw [hdata2]
      dsimp only
      have e3 : (b.data ++ [l]).length + ls.length = b.data.length + (l :: ls).length := by
        simp
        omega
      rw [e3, List.append_assoc, List.singleton_append]

/-- A reader thread processing a sequence of lines appends exactly the
non-noise lines to the logger (with the stream prefix), the channel and the
shared buffer, in order. -/
theorem process_stdout_line_foldl (lines : List String) (s : PumpState) :
    (lines.foldl process_stdout_line s).plog
      = s.plog ++ (lines.filter (fun l => !strContains l manualTriggerNoise)).map
          (fun l => "[MarkovChainBot.py] " ++ l) ∧
    (lines.foldl process_stdout_line s).chan
      = s.chan ++ lines.filter (fun l => !strContains l manualTriggerNoise) ∧
    (lines.foldl process_stdout_line s).buf.data
      = s.buf.data ++ lines.filter (fun l => !strContains l manualTriggerNoise) ∧
    (lines.foldl process_stdout_line s).buf.capacity = s.buf.capacity := by
  induction lines generalizing s with
  | nil => simp
  | cons l ls ih =>
    rw [List.foldl_cons]
    by_cases hn : strContains l manualTriggerNoise
    · have hstep : process_stdout_line s l = s := by
        simp [process_stdout_line, hn]
      rw [hstep]
      obtain ⟨h1, h2, h3, h4⟩ := ih s
      refine ⟨?_, ?_, ?_, ?_⟩ <;> simp [h1, h2, h3, h4, List.filter_cons, hn]
    · have hstep : process_stdout_line s l =
          { plog := s.plog ++ ["[MarkovChainBot.py] " ++ l]
            chan := s.chan ++ [l]
            buf := s.buf.pushBack l } := by
        simp [process_stdout_line, hn]
      rw [hstep]
      obtain ⟨h1, h2, h3, h4⟩ :=
        ih { plog := s.plog ++ ["[MarkovChainBot.py] " ++ l]
             chan := s.chan ++ [l]
             buf := s.buf.pushBack l }
      refine ⟨?_, ?_, ?_, ?_⟩
      · rw [h1]
        simp [List.filter_cons, hn]
      · rw [h2]
        simp [List.filter_cons, hn]
      · rw [h3]
        simp [List.filter_cons, hn, RingBuffer.pushBack]
      · rw [h4]
        simp [RingBuffer.pushBack]

/-- C1 counterexample. The claim asserts that after any N pushes into the
shared buffer its length is min(N, 200). The reader threads insert with a
raw VecDeque::push_back and never evict (bot_manager.rs lines 143 and 161):
201 non-noise lines processed by the stdout reader leave the shared buffer
at length 201, not min(201, 200) = 200. -/
theorem C1_counterexample :
    ((List.replicate 201 "hello").foldl process_stdout_line pumpInit).buf.data.length = 201 ∧
    ((List.replicate 201 "hello").foldl process_stdout_line pumpInit).buf.data.length ≠
      min (List.replicate 201 "hello").length outputLinesInit.capacity := by
  have hkeep : ∀ a ∈ List.replicate 201 "hello",
      (!strContains a manualTriggerNoise) = true := by
    intro a ha
    rw [List.eq_of_mem_replicate ha]
    decide
  obtain ⟨-, -, hbuf, -⟩ :=
    process_stdout_line_foldl (List.replicate 201 "hello") pumpInit
  rw [List.filter_eq_self.mpr hkeep] at hbuf
  have hpdata : pumpInit.buf.data = [] := rfl
  have hlen : ((List.replicate 201 "hello").foldl process_stdout_line pumpInit).buf.data.length
      = 201 := by
    rw [hbuf, hpdata, List.nil_append, List.length_replicate]
  refine ⟨hlen, ?_⟩
  rw [hlen, List.length_replicate]
  have hcap : outputLinesInit.capacity = 200 := rfl
  rw [hcap]
  omega

/-- C1 amended: the eviction discipline holds on the push_log_line path
(the GUI poll insertion, gui.rs lines 243-249): starting from the buffer
created at application start, pushing any N lines through push_log_line
leaves exactly min(N, 200) lines, namely the last 200 pushed lines in push
order, and a push at capacity removes exactly the oldest line before
appending. -/
theorem C1_push_log_line_ring (lines : List String) :
    (lines.foldl push_log_line outputLinesInit).data.length = min lines.length 200 ∧
    (lines.foldl push_log_line outputLinesInit).data = lines.drop (lines.length - 200) ∧
    ∀ (b : RingBuffer) (l : String),
      (push_log_line b l).data =
        if b.data.length = b.capacity then b.data.tail ++ [l] else b.data ++ [l] := by
  obtain ⟨hcap, hdata⟩ :=
    push_log_line_foldl lines outputLinesInit
      (by simp [outputLinesInit]) (by simp [outputLinesInit])
  have h0 : outputLinesInit.data = [] := rfl
  have hc200 : outputLinesInit.capacity = 200 := rfl
  rw [h0, hc200, List.nil_append, List.length_nil, Nat.zero_add] at hdata
  refine ⟨?_, hdata, ?_⟩
  · rw [hdata, List.length_drop]
    omega
  · intro b l
    unfold push_log_line
    split <;> rfl

/-- C2 counterexample. The claim asserts that two consecutive stop calls
with no process running append at most one sentinel line to the shared
buffer. stop_bot (bot_manager.rs lines 57-62) appends the sentinel
unconditionally, so two calls from a state with no child and no pid append
two sentinel lines. -/
theorem C2_counterexample :
    ((stop_bot "t2" (stop_bot "t1"
        ⟨none, none, outputLinesInit, []⟩)).output_lines.data.countP
      (fun l => strContains l destroyedMsg)) = 2 := by
  decide

/-- C2 amended: stop_bot always clears the stored handle and pid and always
appends exactly one sentinel line to the shared buffer, whether or not a
process was running; hence two consecutive stops append exactly two
sentinel lines. The embedding is a total function, so no panic occurs. -/
theorem C2_stop_bot_sentinel (s : BotState) (t1 t2 : String) :
    (stop_bot t1 s).child = none ∧
    (stop_bot t1 s).child_pid = none ∧
    (stop_bot t1 s).output_lines.data = s.output_lines.data ++ [sentinelLine t1] ∧
    (stop_bot t2 (stop_bot t1 s)).output_lines.data
      = s.output_lines.data ++ [sentinelLine t1, sentinelLine t2] := by
  cases hp : s.child_pid <;>
    simp [stop_bot, RingBuffer.pushBack, hp]

/-- The duplicate-skipping pass emits no line twice and emits nothing
already in the seen set. -/
theorem dedup_go_nodup (lines seen : List String) :
    (dedup_go seen lines).Nodup ∧ ∀ x ∈ dedup_go seen lines, x ∉ seen := by
  induction lines generalizing seen with
  | nil => simp [dedup_go]
  | cons l ls ih =>
    by_cases hm : l ∈ seen
    · simp only [dedup_go, if_pos hm]
      exact ih seen
    · simp only [dedup_go, if_neg hm]
      obtain ⟨hnd, hnotin⟩ := ih (l :: seen)
      refine ⟨?_, ?_⟩
      · rw [List.nodup_cons]
        exact ⟨fun hmem => (hnotin l hmem) (List.mem_cons_self l seen), hnd⟩
      · intro x hx
        rcases List.mem_cons.mp hx with rfl | hx2
        · exact hm
        · exact fun hxs => hnotin x hx2 (List.mem_cons_of_mem _ hxs)

/-- C3 counterexample. The claim asserts the caller message line always
precedes the first captured output line of the new process. The reader
thread is spawned before restart_bot pushes the message line, so the
schedule in which the reader pushes the first output line first is a valid
trace, and in it the output line precedes the message line. -/
theorem C3_counterexample :
    RestartTrace "S" "M" "O" ["S", "O", "M"] ∧
    ["S", "O", "M"].indexOf "O" < ["S", "O", "M"].indexOf "M" := by
  refine ⟨⟨["O", "M"], ?_, rfl⟩, by decide⟩
  exact Interleave.right (Interleave.left Interleave.nil)

/-- C3 amended: in every trace of restart_bot with a running process, the
sentinel line is first, preceding both the caller message line and the
first captured output line; those two may then appear in either order. -/
theorem C3_restart_order (s m o : String) (t : List String)
    (h : RestartTrace s m o t) :
    t.head? = some s ∧ (t = [s, m, o] ∨ t = [s, o, m]) := by
  obtain ⟨rest, hint, rfl⟩ := h
  refine ⟨rfl, ?_⟩
  cases hint with
  | left h2 =>
    cases h2 with
    | right h3 =>
      cases h3 with
      | nil => exact Or.inl rfl
  | right h2 =>
    cases h2 with
    | left h3 =>
      cases h3 with
      | nil => exact Or.inr rfl

theorem C3_restart_order_witness :
    RestartTrace "S" "M" "O" ["S", "M", "O"] ∧
    (["S", "M", "O"].head? = some "S" ∧
      (["S", "M", "O"] = ["S", "M", "O"] ∨ ["S", "M", "O"] = ["S", "O", "M"])) := by
  have ht : RestartTrace "S" "M" "O" ["S", "M", "O"] :=
    ⟨["M", "O"], Interleave.left (Interleave.right Interleave.nil), rfl⟩
  exact ⟨ht, C3_restart_order "S" "M" "O" ["S", "M", "O"] ht⟩

/-- C4: from a false flag, handling a payload sets the flag to true exactly
when the trimmed payload equals RESTART_BOT; the listed other payloads
leave the flag false; and the GUI tick observing a true flag performs the
restart and resets the flag to false. -/
theorem C4_ipc_round_trip (payload : String) :
    (ipc_handle_payload payload false = true ↔ rustTrim payload = "RESTART_BOT") ∧
    ipc_handle_payload "RESTART_BOT" false = true ∧
    ipc_handle_payload "restart_bot" false = false ∧
    ipc_handle_payload "RESTART" false = false ∧
    ipc_handle_payload "" false = false ∧
    gui_ipc_step true = (false, true) ∧
    (∀ f : Bool, (gui_ipc_step f).2 = true ↔ f = true) := by
  refine ⟨?_, by decide, by decide, by decide, by decide, rfl, ?_⟩
  · by_cases h : rustTrim payload = "RESTART_BOT" <;>
      simp [ipc_handle_payload, h]
  · intro f
    cases f <;> simp [gui_ipc_step]

/-- C6: a line containing the denylist substring leaves the reader-thread
state untouched: it is not logged, not sent on the channel, and not pushed
into the shared buffer. Moreover, over any whole run from the initial
state, a noisy line is a member of neither the shared buffer nor the
channel, and every logged line is the prefixed image of a non-noise
line. -/
theorem C6_noise_filtering (s : PumpState) (line : String)
    (h : strContains line manualTriggerNoise = true) :
    process_stdout_line s line = s ∧
    ∀ lines : List String,
      line ∉ (lines.foldl process_stdout_line pumpInit).buf.data ∧
      line ∉ (lines.foldl process_stdout_line pumpInit).chan ∧
      (lines.foldl process_stdout_line pumpInit).plog
        = (lines.filter (fun l => !strContains l manualTriggerNoise)).map
            (fun l => "[MarkovChainBot.py] " ++ l) := by
  refine ⟨by simp [process_stdout_line, h], ?_⟩
  intro lines
  obtain ⟨h1, h2, h3, -⟩ := process_stdout_line_foldl lines pumpInit
  have hpp : pumpInit.plog = [] := rfl
  have hpc : pumpInit.chan = [] := rfl
  have hpb : pumpInit.buf.data = [] := rfl
  rw [hpp] at h1
  rw [hpc] at h2
  rw [hpb] at h3
  rw [List.nil_append] at h1 h2 h3
  refine ⟨?_, ?_, h1⟩
  · rw [h3]
    intro hmem
    have := (List.mem_filter.mp hmem).2
    rw [h] at this
    simp at this
  · rw [h2]
    intro hmem
    have := (List.mem_filter.mp hmem).2
    rw [h] at this
    simp at this

theorem C6_noise_filtering_witness :
    strContains "a Generate command triggered manually b" manualTriggerNoise = true ∧
    (process_stdout_line pumpInit "a Generate command triggered manually b" = pumpInit ∧
      ∀ lines : List String,
        "a Generate command triggered manually b"
            ∉ (lines.foldl process_stdout_line pumpInit).buf.data ∧
        "a Generate command triggered manually b"
            ∉ (lines.foldl process_stdout_line pumpInit).chan ∧
        (lines.foldl process_stdout_line pumpInit).plog
          = (lines.filter (fun l => !strContains l manualTriggerNoise)).map
              (fun l => "[MarkovChainBot.py] " ++ l)) := by
  refine ⟨by decide, ?_⟩
  exact C6_noise_filtering pumpInit "a Generate command triggered manually b" (by decide)

/-- C7 counterexample. The claim asserts that a spawn failure is logged.
In the code the expect call panics the spawning thread: the caller does
receive (None, None) through the closed result channel, but the only line
handed to the logger during the failed attempt is the run header emitted
before the spawn, and it does not mention the failure. -/
theorem C7_counterexample :
    restart_recv (run_markov_chain_bot .fail).2 = (none, none) ∧
    (run_markov_chain_bot .fail).1 = [runHeaderLine] ∧
    ∀ l ∈ (run_markov_chain_bot .fail).1,
      strContains l "Failed to start MarkovChainBot.py" = false := by
  refine ⟨rfl, rfl, ?_⟩
  intro l hl
  rw [List.mem_singleton.mp hl]
  decide

/-- C7 amended: on spawn failure the caller receives no handle and no pid
(the spawning thread panics, nothing is sent on the result channel, and
recv defaults to (None, None)); the logger receives only the run header,
not the failure; there is no retry (the model is a single attempt). On
success the caller receives the handle and pid. -/
theorem C7_spawn_failure :
    restart_recv (run_markov_chain_bot .fail).2 = (none, none) ∧
    (run_markov_chain_bot .fail).1 = [runHeaderLine] ∧
    ∀ pid : Nat, restart_recv (run_markov_chain_bot (.ok pid)).2 = (some pid, some pid) :=
  ⟨rfl, rfl, fun _ => rfl⟩

/-- C8: the exit watcher appends the exit status to the persistent log and
leaves both the shared buffer and the notification channel exactly as they
were. -/
theorem C8_exit_watcher_frame (s : PumpState) (status : String) :
    (exit_watcher s status).buf = s.buf ∧
    (exit_watcher s status).chan = s.chan ∧
    (exit_watcher s status).plog
      = s.plog ++ ["[MarkovChainBot.py] exited with status: " ++ status] :=
  ⟨rfl, rfl, rfl⟩

/-- C9: a non-filtered line is appended once by the reader thread (raw
push_back) and once more by the GUI poll loop (push_log_line) after
arriving on the channel; for the capacity-200 shared buffer the result, in
any prior buffer state, ends with two adjacent equal copies of that line.
The renderer then skips duplicates, so the displayed list contains no
repeated line. -/
theorem C9_duplicate_delivery (b : RingBuffer) (line : String)
    (h : b.capacity = 200) :
    (∃ pre, (push_log_line (b.pushBack line) line).data = pre ++ [line, line]) ∧
    ∀ lines : List String, (render_dedup lines).Nodup := by
  constructor
  · by_cases hfull : (b.pushBack line).data.length = (b.pushBack line).capacity
    · rw [push_log_line, if_pos hfull]
      have hblen : b.data.length = 199 := by
        have := hfull
        simp [RingBuffer.pushBack, h] at this
        omega
      obtain ⟨c, cs, hd⟩ : ∃ c cs, b.data = c :: cs := by
        cases hdd : b.data with
        | nil =>
          exfalso
          rw [hdd] at hblen
          simp at hblen
        | cons c cs => exact ⟨c, cs, rfl⟩
      refine ⟨cs, ?_⟩
      simp [RingBuffer.pushBack, hd]
    · rw [push_log_line, if_neg hfull]
      refine ⟨b.data, ?_⟩
      simp [RingBuffer.pushBack]
  · intro lines
    exact (dedup_go_nodup lines []).1

theorem C9_duplicate_delivery_witness :
    outputLinesInit.capacity = 200 ∧
    ((∃ pre, (push_log_line (outputLinesInit.pushBack "x") "x").data
          = pre ++ ["x", "x"]) ∧
      ∀ lines : List String, (render_dedup lines).Nodup) := by
  refine ⟨rfl, C9_duplicate_delivery outputLinesInit "x" rfl⟩

/-- Removing from a duplicate-free list the members of its own k-prefix
leaves exactly its k-suffix. -/
theorem filter_not_mem_take (l : List FsFile) (k : Nat) (hnd : l.Nodup) :
    l.filter (fun f => decide (f ∉ l.take k)) = l.drop k := by
  induction l generalizing k with
  | nil => simp
  | cons x xs ih =>
    cases k with
    | zero =>
      rw [List.take_zero, List.drop_zero]
      refine List.filter_eq_self.mpr ?_
      intro a _
      simp
    | succ k =>
      rw [List.take_succ_cons, List.drop_succ_cons]
      have hx : (decide (x ∉ x :: List.take k xs) : Bool) = false := by
        simp
      rw [List.filter_cons, hx]
      simp only [Bool.false_eq_true, if_false]
      have hxs : x ∉ xs := (List.nodup_cons.mp hnd).1
      have hcongr : ∀ y ∈ xs,
          (fun f => decide (f ∉ x :: List.take k xs)) y
            = (fun f => decide (f ∉ List.take k xs)) y := by
        intro y hy
        have hyx : y ≠ x := fun heq => hxs (heq ▸ hy)
        simp [hyx]
      rw [List.filter_congr hcongr]
      exact ih k (List.nodup_cons.mp hnd).2

/-- On a directory of log files already listed in strictly ascending
creation-time order, rotation removes exactly the entries beyond the
retention count, oldest first. -/
theorem rotate_logs_sorted (files : List FsFile)
    (hs : List.Sorted (fun a b : FsFile => a.ctime < b.ctime) files)
    (hlog : ∀ f ∈ files, isLogFile f = true) :
    rotate_logs files = files.drop (files.length - MAX_LOG_FILES) := by
  have hfilter : files.filter isLogFile = files := List.filter_eq_self.mpr hlog
  have hsle : List.Sorted (fun a b : FsFile => a.ctime ≤ b.ctime) files :=
    hs.imp (fun h => le_of_lt h)
  have hsl : sortedLogs files = files := by
    unfold sortedLogs
    rw [hfilter]
    exact hsle.insertionSort_eq
  have hnd : files.Nodup :=
    hs.imp (fun {a b} h heq => absurd (heq ▸ h) (lt_irrefl _))
  unfold rotate_logs
  rw [hsl]
  exact filter_not_mem_take files (files.length - MAX_LOG_FILES) hnd

/-- C10: rotation never deletes a file whose extension is not log: any
such directory entry is still present after rotate_logs, whatever the
directory content. -/
theorem C10_rotation_frame (files : List FsFile) (f : FsFile)
    (hmem : f ∈ files) (hnotlog : isLogFile f = false) :
    f ∈ rotate_logs files := by
  unfold rotate_logs
  rw [List.mem_filter]
  refine ⟨hmem, ?_⟩
  rw [decide_eq_true_eq]
  intro htk
  have h1 : f ∈ sortedLogs files :=
    (List.take_sublist _ _).mem htk
  have h2 : f ∈ files.filter isLogFile :=
    (List.perm_insertionSort (fun a b : FsFile => a.ctime ≤ b.ctime)
      (files.filter isLogFile)).mem_iff.mp h1
  have h3 := (List.mem_filter.mp h2).2
  rw [hnotlog] at h3
  exact absurd h3 (by simp)

set_option maxHeartbeats 2000000 in
theorem C10_rotation_frame_witness :
    (⟨"notes.txt", some "txt", 5⟩ : FsFile) ∈ files12 ++ [⟨"notes.txt", some "txt", 5⟩] ∧
    isLogFile ⟨"notes.txt", some "txt", 5⟩ = false ∧
    (⟨"notes.txt", some "txt", 5⟩ : FsFile)
        ∈ rotate_logs (files12 ++ [⟨"notes.txt", some "txt", 5⟩]) := by
  refine ⟨by decide, by decide,
    C10_rotation_frame (files12 ++ [⟨"notes.txt", some "txt", 5⟩])
      ⟨"notes.txt", some "txt", 5⟩ (by decide) (by decide)⟩

/-- C5 counterexample. The claim asserts that with MAX_LOG_FILES + 2
pre-existing log files, initialization removes exactly the two oldest.
With twelve pre-existing files of creation times 0 through 11, full
initialization leaves MAX_LOG_FILES files, but the file of creation time 2
— the third oldest — has also been removed (the startup rotation removes
the two oldest, then creating the session file pushes the count past the
retention bound and the post-creation rotation removes a third), while the
fourth oldest survives. -/
theorem C5_counterexample :
    (logger_init files12 "session" 100).length = MAX_LOG_FILES ∧
    (⟨"2", some "log", 2⟩ : FsFile) ∈ files12 ∧
    (⟨"2", some "log", 2⟩ : FsFile) ∉ logger_init files12 "session" 100 ∧
    (⟨"3", some "log", 3⟩ : FsFile) ∈ logger_init files12 "session" 100 := by
  decide

/-- C5 amended: with MAX_LOG_FILES + 2 pre-existing log files of distinct
creation times (listed oldest first) and a session file newer than all of
them, full logger initialization leaves exactly MAX_LOG_FILES files: the
session file plus all pre-existing files except the three oldest — two
removed by the startup rotation and one more by the rotation that follows
the creation of the session log file. -/
theorem C5_log_rotation (files : List FsFile) (newName : String) (now : Nat)
    (hs : List.Sorted (fun a b : FsFile => a.ctime < b.ctime) files)
    (hlog : ∀ f ∈ files, isLogFile f = true)
    (hlen : files.length = MAX_LOG_FILES + 2)
    (hnow : ∀ f ∈ files, f.ctime < now) :
    logger_init files newName now
        = files.drop 3 ++ [⟨newName, some "log", now⟩] ∧
    (logger_init files newName now).length = MAX_LOG_FILES := by
  have hstep1 : rotate_logs files = files.drop 2 := by
    rw [rotate_logs_sorted files hs hlog, hlen,
      show MAX_LOG_FILES + 2 - MAX_LOG_FILES = 2 from by omega]
  have hlen1 : (files.drop 2).length = MAX_LOG_FILES := by
    rw [List.length_drop, hlen]
    omega
  have hs1 : List.Sorted (fun a b : FsFile => a.ctime < b.ctime) (files.drop 2) :=
    List.Pairwise.sublist (List.drop_sublist 2 files) hs
  have hs2 : List.Sorted (fun a b : FsFile => a.ctime < b.ctime)
      (files.drop 2 ++ [⟨newName, some "log", now⟩]) := by
    refine List.pairwise_append.mpr ⟨hs1, List.pairwise_singleton _ _, ?_⟩
    intro a ha b hb
    rw [List.mem_singleton.mp hb]
    exact hnow a ((List.drop_sublist 2 files).mem ha)
  have hlog2 : ∀ f ∈ files.drop 2 ++ [(⟨newName, some "log", now⟩ : FsFile)],
      isLogFile f = true := by
    intro f hf
    rcases List.mem_append.mp hf with hf1 | hf2
    · exact hlog f ((List.drop_sublist 2 files).mem hf1)
    · rw [List.mem_singleton.mp hf2]
      rfl
  have hstep2 : rotate_logs (files.drop 2 ++ [⟨newName, some "log", now⟩])
      = files.drop 3 ++ [⟨newName, some "log", now⟩] := by
    rw [rotate_logs_sorted _ hs2 hlog2]
    have hlen2 : (files.drop 2 ++ [(⟨newName, some "log", now⟩ : FsFile)]).length
        = MAX_LOG_FILES + 1 := by
      rw [List.length_append, hlen1]
      rfl
    rw [hlen2]
    have hone : MAX_LOG_FILES + 1 - MAX_LOG_FILES = 1 := by omega
    rw [hone, List.drop_append_of_le_length (by rw [hlen1]; decide),
      List.drop_drop]
  have hmain : logger_init files newName now
      = files.drop 3 ++ [⟨newName, some "log", now⟩] := by
    unfold logger_init
    rw [hstep1, hstep2]
  refine ⟨hmain, ?_⟩
  rw [hmain, List.length_append, List.length_drop, hlen]
  simp [MAX_LOG_FILES]

theorem C5_log_rotation_witness :
    (List.Sorted (fun a b : FsFile => a.ctime < b.ctime) files12 ∧
      (∀ f ∈ files12, isLogFile f = true) ∧
      files12.length = MAX_LOG_FILES + 2 ∧
      (∀ f ∈ files12, f.ctime < 100)) ∧
    (logger_init files12 "session2" 100
        = files12.drop 3 ++ [⟨"session2", some "log", 100⟩] ∧
      (logger_init files12 "session2" 100).length = MAX_LOG_FILES) := by
  refine ⟨⟨by decide, by decide, by decide, by decide⟩,
    C5_log_rotation files12 "session2" 100
      (by decide) (by decide) (by decide) (by decide)⟩

end YapBot
